import Mathlib

/-!
Verification of the httpcore async connection pool
(`src/httpcore/_async/connection_pool.py` and `src/httpcore/_async/http_proxy.py`).

The pool bookkeeping functions (`_add_to_pool`, `_remove_from_pool`,
`_get_connection_from_pool`, `_response_closed`, `_keepalive_sweep`, the proxy
pool's `_forward_request` / `_tunnel_request` paths, and the
`ResponseByteStream` wrapper) are shallowly embedded as pure functions over an
explicit pool state.  Connections are records carrying the five mutable
attributes the pool reads; the pool index (a dict from origin to a set of
connections) is flattened to a list of connections, each carrying its key, and
set-iteration order is made explicit as a list parameter.  The connection
class itself (`AsyncHTTPConnection`) is not part of the analysed sources, so
its state alphabet and the helpers the pool relies on are modelled from the
specification where noted.
-/

/-- Modelled from the spec: the lifecycle states of `AsyncHTTPConnection`
(`ConnectionState` lives in `_async/base.py`, which is not among the analysed
sources; the state alphabet is taken from spec section 3). -/
inductive ConnectionState
  | PENDING
  | READY
  | ACTIVE
  | IDLE
  | CLOSED
  deriving DecidableEq, Repr

/-- Modelled from the spec: the negotiated wire protocol of a connection
(stable after PENDING, per spec section 4.1). -/
inductive Protocol
  | HTTP1
  | HTTP2
  deriving DecidableEq, Repr

/-- An origin is a (scheme, host, port) triple; the pool partition key. -/
abbrev Origin := String × String × Nat

/-- Modelled from the spec: the attributes of `AsyncHTTPConnection` the pool
reads and writes (`origin`, `state`, `expires_at`, the `is_http11`/`is_http2`
probes via `protocol`, and the `is_connection_dropped()` probe as the
`dropped` field).  `cid` stands for the Python object identity, and
`readyCalls` is a ghost counter of `mark_as_ready()` invocations. -/
structure Conn where
  cid : Nat
  origin : Origin
  state : ConnectionState
  protocol : Option Protocol
  dropped : Bool
  expiresAt : Option Nat
  readyCalls : Nat
  deriving DecidableEq, Repr

def isHttp11 (c : Conn) : Bool := c.protocol == some Protocol.HTTP1

def isHttp2 (c : Conn) : Bool := c.protocol == some Protocol.HTTP2

/-- The configuration fields set in `AsyncConnectionPool.__init__` and never
mutated afterwards (src 78-94). -/
structure PoolConfig where
  maxConnections : Option Nat
  maxKeepalive : Option Nat
  keepaliveExpiry : Option Nat
  http2 : Bool
  deriving DecidableEq, Repr

/-- The mutable pool state: the index `self._connections` flattened to a list
of connections (each one carrying its dict key in its `origin` field, exactly
as the source maintains it), plus the number of admission-semaphore permits
currently taken. -/
structure PoolState where
  conns : List Conn
  permitsTaken : Nat
  deriving DecidableEq, Repr

/-- `self._connections_for_origin(origin)` (src 262-263): snapshot of the set
stored under `origin`. -/
def connectionsForOrigin (s : PoolState) (o : Origin) : List Conn :=
  s.conns.filter (fun c => c.origin == o)

/-- `self._get_all_connections()` (src 265-269): union of all origin sets,
which in the flattened index is the whole list. -/
def getAllConnections (s : PoolState) : List Conn :=
  s.conns

/-- `connection in self._connections.get(connection.origin, set())`
(src 256): membership of the connection in the set stored under its origin. -/
def memPool (s : PoolState) (c : Conn) : Bool :=
  s.conns.any (fun d => d.origin == c.origin && d.cid == c.cid)

def isIdleConn (c : Conn) : Bool := c.state == ConnectionState.IDLE

/-- Number of connections in the index currently in IDLE state. -/
def countIdle (s : PoolState) : Nat :=
  s.conns.countP isIdleConn

/-- Spec invariant 2: the number of connections in the index equals the
number of admission permits taken. -/
abbrev indexPermitInvariant (s : PoolState) : Prop :=
  s.conns.length = s.permitsTaken

/-- `AsyncConnectionPool._remove_from_pool` (src 254-260): if the connection
is a member of the set under its origin, release one semaphore permit and
remove it (deleting the emptied set is a no-op in the flattened index).  The
semaphore is the `NullSemaphore` when `max_connections` is unset (src 17-25,
101-106), whose `release` does nothing. -/
def removeFromPool (cfg : PoolConfig) (s : PoolState) (c : Conn) : PoolState :=
  if memPool s c then
    { s with
      permitsTaken :=
        if cfg.maxConnections.isSome then s.permitsTaken - 1 else s.permitsTaken,
      conns := s.conns.filter (fun d => !(d.origin == c.origin && d.cid == c.cid)) }
  else s

/-- `self._connection_semaphore.acquire(timeout=...)` (src 96-108, 249): with
`max_connections` set, a real counting semaphore that blocks (here: `none`,
surfaced as `PoolTimeout`) once all permits are taken; otherwise the
`NullSemaphore`, which grants without counting. -/
def acquirePermit (cfg : PoolConfig) (s : PoolState) : Option PoolState :=
  match cfg.maxConnections with
  | none => some s
  | some m =>
    if s.permitsTaken < m then some { s with permitsTaken := s.permitsTaken + 1 }
    else none

/-- `AsyncConnectionPool._add_to_pool` (src 244-252): acquire an admission
permit, then insert the connection into the set under its origin. -/
def addToPool (cfg : PoolConfig) (s : PoolState) (c : Conn) : Option PoolState :=
  (acquirePermit cfg s).map (fun s1 => { s1 with conns := s1.conns ++ [c] })

/-- The insertion performed by `AsyncHTTPProxy._forward_request` (http_proxy
src 99-101): the connection is added to the index directly under the thread
lock, without any semaphore acquisition. -/
def forwardAddToPool (s : PoolState) (c : Conn) : PoolState :=
  { s with conns := s.conns ++ [c] }

/-- Modelled from the spec: `AsyncHTTPConnection.mark_as_ready` (the
connection class is not among the analysed sources).  Per spec section 4.1 it
transitions the connection to READY, except that an HTTP/2 connection with a
still-active stream budget keeps its state; it also clears `expires_at`.  The
ghost counter `readyCalls` records the invocation. -/
def markAsReady (c : Conn) : Conn :=
  { c with
    state := if c.state == ConnectionState.ACTIVE && isHttp2 c then c.state
             else ConnectionState.READY,
    expiresAt := none,
    readyCalls := c.readyCalls + 1 }

/-- Src 182-183: `reuse_connection.mark_as_ready()` followed by the explicit
`reuse_connection.expires_at = None`. -/
def markReadyClear (c : Conn) : Conn :=
  { markAsReady c with expiresAt := none }

/-- The connections the scan of `_get_connection_from_pool` can pick as
`reuse_connection`: a non-dropped IDLE connection (src 162-171) or an ACTIVE
HTTP/2 connection (src 172-174). -/
def qual (c : Conn) : Bool :=
  (c.state == ConnectionState.IDLE && !c.dropped) ||
  (c.state == ConnectionState.ACTIVE && isHttp2 c)

/-- The last connection in scan order satisfying `qual` — the one the
single-pass overwrite of `reuse_connection` leaves behind. -/
def lastQual (l : List Conn) : Option Conn :=
  l.reverse.find? qual

/-- Replace (in place, as Python mutation of the shared object does) the
first connection with the given `cid` by `c`. -/
def setConnList (c : Conn) : List Conn → List Conn
  | [] => []
  | d :: ds => if d.cid == c.cid then c :: ds else d :: setConnList c ds

/-- The loop state of the scan in `_get_connection_from_pool` (src 152-177). -/
structure ScanAcc where
  seenHttp11 : Bool
  pending : Option Conn
  reuse : Option Conn
  toClose : List Conn
  pool : PoolState

/-- One iteration of the `for connection in self._connections_for_origin(...)`
loop (src 158-177), including the in-loop eviction of dropped IDLE
connections. -/
def scanStep (cfg : PoolConfig) (acc : ScanAcc) (c : Conn) : ScanAcc :=
  let acc := if isHttp11 c then { acc with seenHttp11 := true } else acc
  if c.state == ConnectionState.IDLE then
    if c.dropped then
      { acc with
        toClose := acc.toClose ++ [c],
        pool := removeFromPool cfg acc.pool c }
    else { acc with reuse := some c }
  else if c.state == ConnectionState.ACTIVE && isHttp2 c then
    { acc with reuse := some c }
  else if c.state == ConnectionState.PENDING then
    { acc with pending := some c }
  else acc

/-- `AsyncConnectionPool._get_connection_from_pool` (src 149-193).  `scan` is
the iteration order of the per-origin set snapshot (Python set order is
arbitrary).  Returns the pool after the in-scan evictions and the in-place
`mark_as_ready` update, together with the connection handed to the requester.
The `connections_to_close` are closed after the loop (src 190-191); closing
acts on objects already removed from the index, so it has no further effect
on the pool state. -/
def getConnectionFromPool (cfg : PoolConfig) (s : PoolState) (scan : List Conn) :
    PoolState × Option Conn :=
  let acc := scan.foldl (scanStep cfg) ⟨false, none, none, [], s⟩
  match acc.reuse with
  | some c =>
    let c2 := markReadyClear c
    ({ acc.pool with conns := setConnList c2 acc.pool.conns }, some c2)
  | none =>
    if cfg.http2 && acc.pending.isSome && !acc.seenHttp11 then
      (acc.pool, acc.pending)
    else (acc.pool, none)

/-- Set (in place) the state of the first connection with the given `cid`. -/
def updStateFirst (cid : Nat) (st : ConnectionState) : List Conn → List Conn
  | [] => []
  | d :: ds =>
    if d.cid == cid then { d with state := st } :: ds
    else d :: updStateFirst cid st ds

def setConnState (s : PoolState) (cid : Nat) (st : ConnectionState) : PoolState :=
  { s with conns := updStateFirst cid st s.conns }

/-- Set (in place) the `expires_at` of the first connection with the given
`cid` (src 211: `connection.expires_at = now + self._keepalive_expiry`). -/
def updExpiresFirst (cid : Nat) (v : Option Nat) : List Conn → List Conn
  | [] => []
  | d :: ds =>
    if d.cid == cid then { d with expiresAt := v } :: ds
    else d :: updExpiresFirst cid v ds

def setConnExpires (s : PoolState) (cid : Nat) (v : Option Nat) : PoolState :=
  { s with conns := updExpiresFirst cid v s.conns }

def findConn (s : PoolState) (cid : Nat) : Option Conn :=
  s.conns.find? (fun d => d.cid == cid)

/-- `AsyncConnectionPool._response_closed` (src 195-217), the body-close
callback.  `c` is the connection object passed to the callback, read at its
current state.  A CLOSED connection is removed; an IDLE connection is removed
and closed when the total index size exceeds `max_keepalive`, and otherwise
gets `expires_at` stamped when `keepalive_expiry` is configured.  (The
`connection.aclose()` of the evicted connection acts on an object no longer
in the index.) -/
def responseClosed (cfg : PoolConfig) (s : PoolState) (c : Conn) (now : Nat) :
    PoolState :=
  if c.state == ConnectionState.CLOSED then
    removeFromPool cfg s c
  else if c.state == ConnectionState.IDLE then
    match cfg.maxKeepalive with
    | some k =>
      if (getAllConnections s).length > k then removeFromPool cfg s c
      else
        match cfg.keepaliveExpiry with
        | some e => setConnExpires s c.cid (some (now + e))
        | none => s
    | none =>
      match cfg.keepaliveExpiry with
      | some e => setConnExpires s c.cid (some (now + e))
      | none => s
  else s

/-- A response on connection `cid` finishing: the connection object moves to
state `st` as its transport-level stream close completes (ACTIVE to IDLE or
CLOSED, or still ACTIVE for HTTP/2 with other live streams — spec section
4.1; the connection class is outside the analysed sources), and then the
wrapper's callback `_response_closed` runs on it. -/
def completeResponse (cfg : PoolConfig) (s : PoolState) (cid : Nat)
    (st : ConnectionState) (now : Nat) : PoolState :=
  match findConn s cid with
  | none => s
  | some d => responseClosed cfg (setConnState s cid st) { d with state := st } now

/-- Whether an IDLE connection has expired (src 233-237:
`connection.expires_at is not None and now > connection.expires_at`). -/
def sweepExpired (now : Nat) (c : Conn) : Bool :=
  c.state == ConnectionState.IDLE &&
    (match c.expiresAt with
     | some e => decide (e < now)
     | none => false)

/-- `AsyncConnectionPool._keepalive_sweep` (src 219-242), the part past the
once-per-second gate: every expired IDLE connection is removed from the pool
(and the removed objects are closed afterwards). -/
def keepaliveSweep (cfg : PoolConfig) (s : PoolState) (now : Nat) : PoolState :=
  s.conns.foldl
    (fun acc c => if sweepExpired now c then removeFromPool cfg acc c else acc) s

/-- The errors a pool `request` call can surface, plus the internal
`NewConnectionRequired` signal (spec section 7). -/
inductive Err
  | poolTimeout
  | newConnectionRequired
  | otherError
  | proxyError (msg : String)
  deriving DecidableEq, Repr

/-- Modelled from the spec: the possible outcomes of a single
`connection.request(...)` call (the connection class is outside the analysed
sources): success, the internal `NewConnectionRequired` signal, or any other
failure. -/
inductive ReqOutcome
  | success
  | newConnectionRequired
  | otherError
  deriving DecidableEq, Repr

def reqResult : ReqOutcome → Except Err Unit
  | ReqOutcome.success => Except.ok ()
  | ReqOutcome.newConnectionRequired => Except.error Err.newConnectionRequired
  | ReqOutcome.otherError => Except.error Err.otherError

/-- The `while connection is None` dispatch loop of
`AsyncConnectionPool.request` (src 124-147): select or construct a
connection, issue the request, catch `NewConnectionRequired` by looping with
a fresh selection, and on any other error evict the connection before
re-raising.  `outcomes` supplies the behaviour of each successive
`connection.request` call (one per loop iteration); `newConn` supplies the
freshly constructed connection objects.  `none` means the supplied outcomes
were exhausted while the loop was still running. -/
def poolRequest (cfg : PoolConfig) (origin : Origin) (newConn : Nat → Conn) :
    PoolState → List ReqOutcome → Option (PoolState × Except Err Unit)
  | _, [] => none
  | s, o :: rest =>
    match getConnectionFromPool cfg s (connectionsForOrigin s origin) with
    | (s1, some c) =>
      match o with
      | ReqOutcome.success => some (s1, Except.ok ())
      | ReqOutcome.newConnectionRequired => poolRequest cfg origin newConn s1 rest
      | ReqOutcome.otherError =>
        some (removeFromPool cfg s1 c, Except.error Err.otherError)
    | (s1, none) =>
      match addToPool cfg s1 (newConn rest.length) with
      | none => some (s1, Except.error Err.poolTimeout)
      | some s2 =>
        match o with
        | ReqOutcome.success => some (s2, Except.ok ())
        | ReqOutcome.newConnectionRequired => poolRequest cfg origin newConn s2 rest
        | ReqOutcome.otherError =>
          some (removeFromPool cfg s2 (newConn rest.length), Except.error Err.otherError)

/-- `AsyncHTTPProxy._forward_request` (http_proxy src 80-118): select a
connection for the proxy origin, or construct one (origin = proxy origin,
HTTP/2 disabled) and insert it into the index without taking a permit
(src 95-101); then issue the rewritten request.  There is no try/except
around `connection.request` (src 112-114): whatever it raises propagates,
and the pool state is left as it was after selection/insertion.  The target
rewrite and proxy-header prepending (src 108-110) do not touch the pool
state and are not modelled. -/
def forwardRequest (cfg : PoolConfig) (proxyOrigin : Origin) (s : PoolState)
    (newConn : Conn) (outcome : ReqOutcome) : PoolState × Except Err Unit :=
  let sel := getConnectionFromPool cfg s (connectionsForOrigin s proxyOrigin)
  match sel.2 with
  | some _ => (sel.1, reqResult outcome)
  | none => (forwardAddToPool sel.1 newConn, reqResult outcome)

def mkProxyErrorMsg (status : Nat) (reason : String) : String :=
  toString status ++ " " ++ reason

/-- The observable outcome of `AsyncHTTPProxy._tunnel_request`:
the pool state, the request result, whether `proxy_connection.aclose()` was
ever invoked, and whether an intermediate proxy connection was created. -/
structure TunnelOutcome where
  pool : PoolState
  result : Except Err Unit
  proxyConnClosed : Bool
  proxyConnCreated : Bool
  deriving Repr

instance : DecidableEq (Except Err Unit) := fun a b =>
  match a, b with
  | Except.ok (), Except.ok () => isTrue rfl
  | Except.error e, Except.error f =>
    if h : e = f then isTrue (by rw [h]) else isFalse (by intro hc; cases hc; exact h rfl)
  | Except.ok _, Except.error _ => isFalse (by intro hc; cases hc)
  | Except.error _, Except.ok _ => isFalse (by intro hc; cases hc)

instance : DecidableEq TunnelOutcome := fun a b =>
  match a, b with
  | ⟨p, r, cl, cr⟩, ⟨p2, r2, cl2, cr2⟩ =>
    if h : p = p2 ∧ r = r2 ∧ cl = cl2 ∧ cr = cr2 then
      isTrue (by obtain ⟨h1, h2, h3, h4⟩ := h; rw [h1, h2, h3, h4])
    else
      isFalse (by intro hc; cases hc; exact h ⟨rfl, rfl, rfl, rfl⟩)

/-- `AsyncHTTPProxy._tunnel_request` (http_proxy src 120-183): select a
connection for the target origin; if none, open an intermediate HTTP/1.1
connection to the proxy, issue CONNECT (its response status and reason are
`connectStatus` / `connectReason`), drain the response body, and raise
`ProxyError("<code> <reason>")` when the status is outside 200-299
(src 158-161) — no path of the source ever calls `proxy_connection.aclose()`.
On success the tunnelled connection `newConn` (built over the proxy socket,
keyed by the target origin, HTTP/2 disabled) is admitted through
`_add_to_pool` (src 167-173); the final `connection.request` (src 177-179)
has no try/except, so its errors propagate with the pool untouched. -/
def tunnelRequest (cfg : PoolConfig) (s : PoolState) (targetOrigin : Origin)
    (connectStatus : Nat) (connectReason : String) (newConn : Conn)
    (outcome : ReqOutcome) : TunnelOutcome :=
  let sel := getConnectionFromPool cfg s (connectionsForOrigin s targetOrigin)
  match sel.2 with
  | some _ => ⟨sel.1, reqResult outcome, false, false⟩
  | none =>
    if connectStatus < 200 ∨ 299 < connectStatus then
      ⟨sel.1, Except.error (Err.proxyError (mkProxyErrorMsg connectStatus connectReason)),
        false, true⟩
    else
      match addToPool cfg sel.1 newConn with
      | none => ⟨sel.1, Except.error Err.poolTimeout, false, true⟩
      | some s2 => ⟨s2, reqResult outcome, false, true⟩

/-- Events observable at the response stream wrapper: the close of the
underlying body stream, and the invocation of the pool callback with the
owning connection. -/
inductive StreamEv
  | streamClose
  | poolCallback (cid : Nat)
  deriving DecidableEq, Repr

/-- The `ResponseByteStream` wrapper (src 28-58).  Its only fields are the
wrapped stream, the owning connection and the callback (src 41-43) — in
particular it holds no already-closed flag.  The two `Raises` fields give the
behaviour of the wrapped stream's `aclose` and of the pool callback. -/
structure ResponseByteStream where
  connectionCid : Nat
  streamAcloseRaises : Bool
  callbackRaises : Bool
  deriving DecidableEq, Repr

/-- `try ... finally ...` on effect traces: the finally part always runs; an
exception from it takes precedence, otherwise the try part's exception is
re-raised. -/
def runTryFinally (tryPart finallyPart : List StreamEv × Bool) : List StreamEv × Bool :=
  (tryPart.1 ++ finallyPart.1, finallyPart.2 || tryPart.2)

/-- `ResponseByteStream.aclose` (src 49-58):
`try: await self.stream.aclose() finally: await self.callback(self.connection)`.
Returns the emitted events in order and whether an exception propagates. -/
def ResponseByteStream.aclose (r : ResponseByteStream) : List StreamEv × Bool :=
  runTryFinally ([StreamEv.streamClose], r.streamAcloseRaises)
    ([StreamEv.poolCallback r.connectionCid], r.callbackRaises)

/-- The events emitted by calling `aclose` on the wrapper `n` times. -/
def ResponseByteStream.acloseN (r : ResponseByteStream) : Nat → List StreamEv
  | 0 => []
  | n + 1 => r.acloseN n ++ r.aclose.1

def countCallbacks (evs : List StreamEv) : Nat :=
  evs.countP (fun e => match e with
    | StreamEv.poolCallback _ => true
    | _ => false)

/-- Modelled from the spec: one serialisable pool event (spec section 5
presents concurrent histories of the pool as serialisable; spec section 4.1
gives the connection state transitions, the connection class being outside
the analysed sources).  Each constructor applies the embedded source
bookkeeping: admission through `_add_to_pool` or the proxy forward-path
insertion (new connections are PENDING), a selection scan, an in-place
connection state change to a non-IDLE state (handshake completion, request
start, transport-level close), a response completing followed at once by its
body-close callback, an eviction through `_remove_from_pool` (the error path
and `aclose`), or a keep-alive sweep. -/
inductive Step (cfg : PoolConfig) : PoolState → PoolState → Prop
  | add {s : PoolState} (c : Conn) {s2 : PoolState}
      (hc : c.state = ConnectionState.PENDING)
      (h : addToPool cfg s c = some s2) : Step cfg s s2
  | addForward {s : PoolState} (c : Conn)
      (hc : c.state = ConnectionState.PENDING) :
      Step cfg s (forwardAddToPool s c)
  | select {s : PoolState} (scan : List Conn) :
      Step cfg s (getConnectionFromPool cfg s scan).1
  | setNonIdle {s : PoolState} (cid : Nat) (st : ConnectionState)
      (h : st ≠ ConnectionState.IDLE) :
      Step cfg s (setConnState s cid st)
  | complete {s : PoolState} (cid : Nat) (st : ConnectionState) (now : Nat) :
      Step cfg s (completeResponse cfg s cid st now)
  | evict {s : PoolState} (c : Conn) :
      Step cfg s (removeFromPool cfg s c)
  | sweep {s : PoolState} (now : Nat) :
      Step cfg s (keepaliveSweep cfg s now)

/-- Pool states reachable from the freshly constructed pool (empty index, no
permits taken — src 91). -/
inductive Reach (cfg : PoolConfig) : PoolState → Prop
  | init : Reach cfg ⟨[], 0⟩
  | step {s s2 : PoolState} : Reach cfg s → Step cfg s s2 → Reach cfg s2

/-! ### Concrete instances used to evaluate the embedded code -/

def exOriginTarget : Origin := ("https", "example.org", 443)

def exOriginProxy : Origin := ("http", "proxy.local", 3128)

/-- A pool configured with `max_connections=10` and HTTP/2 disabled. -/
def exCfg : PoolConfig := ⟨some 10, none, none, false⟩

/-- A pool configured with `max_connections=10` and HTTP/2 enabled. -/
def exCfgH2 : PoolConfig := ⟨some 10, none, none, true⟩

def exEmptyPool : PoolState := ⟨[], 0⟩

/-- A non-dropped IDLE HTTP/1.1 connection to the target origin. -/
def exConnIdle : Conn :=
  ⟨1, exOriginTarget, ConnectionState.IDLE, some Protocol.HTTP1, false, some 99, 0⟩

/-- An ACTIVE HTTP/2 connection to the target origin. -/
def exConnActiveH2 : Conn :=
  ⟨2, exOriginTarget, ConnectionState.ACTIVE, some Protocol.HTTP2, false, none, 0⟩

/-- A PENDING connection (protocol not yet negotiated) to the target origin,
with a stale `expires_at`. -/
def exConnPending : Conn :=
  ⟨3, exOriginTarget, ConnectionState.PENDING, none, false, some 5, 0⟩

/-- A pool whose target-origin set holds a non-dropped IDLE connection and an
ACTIVE HTTP/2 connection. -/
def exPoolIdleActive : PoolState := ⟨[exConnIdle, exConnActiveH2], 2⟩

/-- A pool whose target-origin set holds only a PENDING connection. -/
def exPoolPending : PoolState := ⟨[exConnPending], 1⟩

/-- A non-dropped IDLE HTTP/1.1 connection to the proxy origin. -/
def exConnProxyIdle : Conn :=
  ⟨1, exOriginProxy, ConnectionState.IDLE, some Protocol.HTTP1, false, none, 0⟩

/-- A pool holding one reusable proxy-origin connection, one permit taken. -/
def exPoolProxy : PoolState := ⟨[exConnProxyIdle], 1⟩

/-- A freshly constructed connection for the proxy origin. -/
def exConnNew : Conn :=
  ⟨5, exOriginProxy, ConnectionState.PENDING, none, false, none, 0⟩

/-- A freshly constructed tunnelled connection for the target origin. -/
def exConnTunnel : Conn :=
  ⟨6, exOriginTarget, ConnectionState.PENDING, none, false, none, 0⟩

def exReason407 : String := "Proxy Authentication Required"

def exReason503 : String := "Service Unavailable"

/-! ### General list lemmas -/

theorem countP_split (p q : Conn → Bool) (l : List Conn) :
    l.countP p = (l.filter q).countP p + (l.filter (fun a => !(q a))).countP p := by
  induction l with
  | nil => rfl
  | cons a t ih =>
    cases hq : q a <;> cases hp : p a <;>
      simp [List.countP_cons, List.filter_cons, hq, hp, ih] <;> omega

theorem find?_append_eq (p : Conn → Bool) (l1 l2 : List Conn) :
    (l1 ++ l2).find? p =
      match l1.find? p with
      | some a => some a
      | none => l2.find? p := by
  induction l1 with
  | nil => simp
  | cons a t ih =>
    simp only [List.cons_append, List.find?_cons]
    cases p a <;> simp [ih]

/-! ### Lemmas about removal -/

theorem memPool_of_mem (s : PoolState) (c : Conn) (hmem : c ∈ s.conns) :
    memPool s c = true :=
  List.any_eq_true.mpr ⟨c, hmem, by simp⟩

theorem removeFromPool_of_not_mem (cfg : PoolConfig) (s : PoolState) (c : Conn)
    (h : memPool s c = false) : removeFromPool cfg s c = s := by
  unfold removeFromPool
  simp [h]

theorem memPool_removeFromPool_self (cfg : PoolConfig) (s : PoolState) (c : Conn) :
    memPool (removeFromPool cfg s c) c = false := by
  unfold removeFromPool
  by_cases h : memPool s c = true
  · rw [if_pos h]
    rw [memPool, List.any_eq_false]
    intro d hd
    have h2 := (List.mem_filter.mp hd).2
    simp only [Bool.not_eq_eq_eq_not, Bool.not_true] at h2
    simp [h2]
  · rw [if_neg h]
    exact Bool.eq_false_iff.mpr h

theorem countIdle_removeFromPool_le (cfg : PoolConfig) (s : PoolState) (c : Conn) :
    countIdle (removeFromPool cfg s c) ≤ countIdle s := by
  unfold removeFromPool
  split
  · exact List.Sublist.countP_le isIdleConn (List.filter_sublist s.conns)
  · exact Nat.le_refl _

theorem countIdle_removeFromPool_succ_le (cfg : PoolConfig) (s : PoolState) (c : Conn)
    (hmem : c ∈ s.conns) (hst : isIdleConn c = true) :
    countIdle (removeFromPool cfg s c) + 1 ≤ countIdle s := by
  have hm : memPool s c = true := memPool_of_mem s c hmem
  unfold removeFromPool
  rw [if_pos hm]
  have hsplit := countP_split isIdleConn
    (fun d => !(d.origin == c.origin && d.cid == c.cid)) s.conns
  have hone : 1 ≤ (s.conns.filter
      (fun a => !(!(a.origin == c.origin && a.cid == c.cid)))).countP isIdleConn := by
    apply Nat.succ_le_of_lt
    apply List.countP_pos_iff.mpr
    exact ⟨c, List.mem_filter.mpr ⟨hmem, by simp⟩, hst⟩
  simp only [countIdle] at hsplit ⊢
  omega

/-! ### Lemmas about in-place connection updates -/

theorem updStateFirst_cons (cid : Nat) (st : ConnectionState) (d : Conn) (ds : List Conn) :
    updStateFirst cid st (d :: ds) =
      if d.cid == cid then { d with state := st } :: ds
      else d :: updStateFirst cid st ds := rfl

theorem updExpiresFirst_cons (cid : Nat) (v : Option Nat) (d : Conn) (ds : List Conn) :
    updExpiresFirst cid v (d :: ds) =
      if d.cid == cid then { d with expiresAt := v } :: ds
      else d :: updExpiresFirst cid v ds := rfl

theorem setConnList_cons (c d : Conn) (ds : List Conn) :
    setConnList c (d :: ds) =
      if d.cid == c.cid then c :: ds else d :: setConnList c ds := rfl

theorem countP_updStateFirst_le_succ (cid : Nat) (st : ConnectionState) (l : List Conn) :
    (updStateFirst cid st l).countP isIdleConn ≤ l.countP isIdleConn + 1 := by
  induction l with
  | nil => simp [updStateFirst]
  | cons d ds ih =>
    rw [updStateFirst_cons]
    by_cases h : (d.cid == cid) = true
    · rw [if_pos h]
      simp only [List.countP_cons]
      split_ifs <;> first | omega | simp_all
    · rw [if_neg h]
      simp only [List.countP_cons]
      split_ifs <;> first | omega | simp_all

theorem countP_updStateFirst_le (cid : Nat) (st : ConnectionState)
    (hst : (st == ConnectionState.IDLE) = false) (l : List Conn) :
    (updStateFirst cid st l).countP isIdleConn ≤ l.countP isIdleConn := by
  induction l with
  | nil => simp [updStateFirst]
  | cons d ds ih =>
    rw [updStateFirst_cons]
    by_cases h : (d.cid == cid) = true
    · rw [if_pos h]
      simp only [List.countP_cons]
      have hh : isIdleConn { d with state := st } = false := hst
      rw [hh]
      split_ifs <;> first | omega | simp_all
    · rw [if_neg h]
      simp only [List.countP_cons]
      split_ifs <;> first | omega | simp_all

theorem countP_updExpiresFirst (cid : Nat) (v : Option Nat) (l : List Conn) :
    (updExpiresFirst cid v l).countP isIdleConn = l.countP isIdleConn := by
  induction l with
  | nil => rfl
  | cons d ds ih =>
    rw [updExpiresFirst_cons]
    by_cases h : (d.cid == cid) = true
    · rw [if_pos h]
      simp only [List.countP_cons]
      have hh : isIdleConn { d with expiresAt := v } = isIdleConn d := rfl
      rw [hh]
    · rw [if_neg h]
      simp only [List.countP_cons, ih]

theorem countP_setConnList_le (c : Conn) (hst : isIdleConn c = false) (l : List Conn) :
    (setConnList c l).countP isIdleConn ≤ l.countP isIdleConn := by
  induction l with
  | nil => simp [setConnList]
  | cons d ds ih =>
    rw [setConnList_cons]
    by_cases h : (d.cid == c.cid) = true
    · rw [if_pos h]
      simp only [List.countP_cons, hst]
      split_ifs <;> first | omega | simp_all
    · rw [if_neg h]
      simp only [List.countP_cons]
      split_ifs <;> first | omega | simp_all

theorem mem_updStateFirst_of_find? (cid : Nat) (st : ConnectionState) (l : List Conn)
    (d : Conn) (h : l.find? (fun e => e.cid == cid) = some d) :
    ({ d with state := st } : Conn) ∈ updStateFirst cid st l := by
  induction l with
  | nil => simp at h
  | cons e es ih =>
    rw [updStateFirst_cons]
    cases he : (e.cid == cid) with
    | true =>
      simp only [List.find?_cons, he] at h
      cases h
      simp [he]
    | false =>
      simp only [List.find?_cons, he] at h
      rw [if_neg (by simp [he])]
      exact List.mem_cons_of_mem e (ih h)

theorem markReadyClear_not_idle (c : Conn) : isIdleConn (markReadyClear c) = false := by
  unfold markReadyClear markAsReady isIdleConn
  by_cases h : (c.state == ConnectionState.ACTIVE && isHttp2 c) = true
  · simp only [if_pos h]
    have hact : c.state = ConnectionState.ACTIVE := by
      have h2 := (Bool.and_eq_true _ _).mp h
      exact beq_iff_eq.mp h2.1
    simp [hact]
  · simp only [if_neg h]
    decide

/-! ### Lemmas about the selection scan -/

theorem scanStep_pool_le (cfg : PoolConfig) (acc : ScanAcc) (c : Conn) :
    countIdle (scanStep cfg acc c).pool ≤ countIdle acc.pool := by
  unfold scanStep
  by_cases h1 : isHttp11 c = true <;>
    simp only [h1, if_true, if_false, Bool.false_eq_true] <;>
    split_ifs <;>
    first
      | exact countIdle_removeFromPool_le cfg _ c
      | exact Nat.le_refl _

theorem scanStep_reuse (cfg : PoolConfig) (acc : ScanAcc) (c : Conn) :
    (scanStep cfg acc c).reuse = if qual c = true then some c else acc.reuse := by
  unfold scanStep qual
  by_cases h1 : isHttp11 c = true <;>
    cases hst : c.state <;> cases hd : c.dropped <;> cases hh2 : isHttp2 c <;>
      simp [h1, hst, hd, hh2]

theorem scanFold_pool_le (cfg : PoolConfig) (l : List Conn) :
    ∀ acc : ScanAcc, countIdle (l.foldl (scanStep cfg) acc).pool ≤ countIdle acc.pool := by
  induction l with
  | nil => intro acc; exact Nat.le_refl _
  | cons c t ih =>
    intro acc
    rw [List.foldl_cons]
    exact Nat.le_trans (ih (scanStep cfg acc c)) (scanStep_pool_le cfg acc c)

theorem scanFold_reuse (cfg : PoolConfig) (l : List Conn) :
    ∀ acc : ScanAcc,
      (l.foldl (scanStep cfg) acc).reuse =
        match lastQual l with
        | some c => some c
        | none => acc.reuse := by
  induction l with
  | nil => intro acc; simp [lastQual]
  | cons c t ih =>
    intro acc
    rw [List.foldl_cons, ih (scanStep cfg acc c)]
    have hrev : lastQual (c :: t) =
        match lastQual t with
        | some d => some d
        | none => if qual c = true then some c else none := by
      unfold lastQual
      rw [List.reverse_cons, find?_append_eq]
      cases t.reverse.find? qual <;> cases hq : qual c <;> simp [List.find?_cons, hq]
    rw [hrev, scanStep_reuse]
    cases hlq : lastQual t <;> cases hq : qual c <;> simp [hq]

theorem countIdle_getConnectionFromPool_le (cfg : PoolConfig) (s : PoolState)
    (scan : List Conn) : countIdle (getConnectionFromPool cfg s scan).1 ≤ countIdle s := by
  unfold getConnectionFromPool
  have hp : countIdle (scan.foldl (scanStep cfg) ⟨false, none, none, [], s⟩).pool
      ≤ countIdle s := scanFold_pool_le cfg scan _
  cases hr : (scan.foldl (scanStep cfg) ⟨false, none, none, [], s⟩).reuse with
  | some c =>
    simp only [hr]
    refine Nat.le_trans ?_ hp
    simpa [countIdle] using
      countP_setConnList_le (markReadyClear c) (markReadyClear_not_idle c)
        (scan.foldl (scanStep cfg) ⟨false, none, none, [], s⟩).pool.conns
  | none =>
    simp only [hr]
    split_ifs <;> simpa using hp

theorem sel_eq_of_lastQual (cfg : PoolConfig) (s : PoolState) (scan : List Conn)
    (c : Conn) (h : lastQual scan = some c) :
    (getConnectionFromPool cfg s scan).2 = some (markReadyClear c) := by
  unfold getConnectionFromPool
  have hr : (scan.foldl (scanStep cfg) ⟨false, none, none, [], s⟩).reuse = some c := by
    rw [scanFold_reuse cfg scan _, h]
  simp [hr]

/-! ### Lemmas about sweep, admission and the body-close callback -/

theorem countIdle_foldl_remove_le (cfg : PoolConfig) (p : Conn → Bool) (l : List Conn) :
    ∀ s : PoolState,
      countIdle (l.foldl (fun acc c => if p c = true then removeFromPool cfg acc c else acc) s)
        ≤ countIdle s := by
  induction l with
  | nil => intro s; exact Nat.le_refl _
  | cons c t ih =>
    intro s
    rw [List.foldl_cons]
    refine Nat.le_trans (ih _) ?_
    split_ifs
    · exact countIdle_removeFromPool_le cfg s c
    · exact Nat.le_refl _

theorem countIdle_keepaliveSweep_le (cfg : PoolConfig) (s : PoolState) (now : Nat) :
    countIdle (keepaliveSweep cfg s now) ≤ countIdle s := by
  unfold keepaliveSweep
  exact countIdle_foldl_remove_le cfg (sweepExpired now) s.conns s

theorem addToPool_conns (cfg : PoolConfig) (s : PoolState) (c : Conn) (s2 : PoolState)
    (h : addToPool cfg s c = some s2) : s2.conns = s.conns ++ [c] := by
  unfold addToPool acquirePermit at h
  split at h
  · rw [show ∀ (o : PoolState) (f : PoolState → PoolState),
        Option.map f (some o) = some (f o) from fun o f => rfl] at h
    cases h
    rfl
  · split_ifs at h
    · rw [show ∀ (o : PoolState) (f : PoolState → PoolState),
          Option.map f (some o) = some (f o) from fun o f => rfl] at h
      cases h
      rfl
    · simp at h

theorem countIdle_completeResponse_le (cfg : PoolConfig) (k : Nat) (s : PoolState)
    (cid : Nat) (st : ConnectionState) (now : Nat)
    (hk : cfg.maxKeepalive = some k) (hle : countIdle s ≤ k) :
    countIdle (completeResponse cfg s cid st now) ≤ k := by
  unfold completeResponse
  cases hf : findConn s cid with
  | none => simpa using hle
  | some d =>
    simp only
    unfold findConn at hf
    have hmem : ({ d with state := st } : Conn) ∈ (setConnState s cid st).conns :=
      mem_updStateFirst_of_find? cid st s.conns d hf
    have hsucc : countIdle (setConnState s cid st) ≤ countIdle s + 1 := by
      simpa [countIdle, setConnState] using countP_updStateFirst_le_succ cid st s.conns
    have hlen : countIdle (setConnState s cid st) ≤ (setConnState s cid st).conns.length := by
      simpa [countIdle] using List.countP_le_length isIdleConn
    unfold responseClosed
    by_cases hcl : (({ d with state := st } : Conn).state == ConnectionState.CLOSED) = true
    · rw [if_pos hcl]
      have hni : (st == ConnectionState.IDLE) = false := by
        have hst : st = ConnectionState.CLOSED := beq_iff_eq.mp hcl
        rw [hst]
        decide
      refine Nat.le_trans (countIdle_removeFromPool_le cfg _ _) (Nat.le_trans ?_ hle)
      simpa [countIdle, setConnState] using countP_updStateFirst_le cid st hni s.conns
    · rw [if_neg hcl]
      by_cases hid : (({ d with state := st } : Conn).state == ConnectionState.IDLE) = true
      · rw [if_pos hid]
        simp only [hk]
        by_cases hgt : (getAllConnections (setConnState s cid st)).length > k
        · rw [if_pos hgt]
          have hdec := countIdle_removeFromPool_succ_le cfg (setConnState s cid st)
            { d with state := st } hmem hid
          omega
        · rw [if_neg hgt]
          have hlen2 : (getAllConnections (setConnState s cid st)).length ≤ k :=
            Nat.le_of_not_lt hgt
          have hlen3 : (getAllConnections (setConnState s cid st)).length
              = (setConnState s cid st).conns.length := rfl
          cases he : cfg.keepaliveExpiry with
          | none =>
            simp only [he]
            omega
          | some e =>
            simp only [he]
            have hexp : countIdle (setConnExpires (setConnState s cid st)
                d.cid (some (now + e)))
                = countIdle (setConnState s cid st) := by
              simpa [countIdle, setConnExpires] using
                countP_updExpiresFirst d.cid (some (now + e))
                  (setConnState s cid st).conns
            omega
      · rw [if_neg hid]
        have hni : (st == ConnectionState.IDLE) = false := by
          simpa using hid
        refine Nat.le_trans ?_ hle
        simpa [countIdle, setConnState] using countP_updStateFirst_le cid st hni s.conns

theorem step_countIdle (cfg : PoolConfig) (k : Nat) {s s2 : PoolState}
    (hk : cfg.maxKeepalive = some k) (hle : countIdle s ≤ k)
    (hstep : Step cfg s s2) : countIdle s2 ≤ k := by
  cases hstep with
  | add c hc h =>
    have hcn := addToPool_conns cfg s c s2 h
    have hnc : isIdleConn c = false := by
      unfold isIdleConn
      rw [hc]
      decide
    simpa [countIdle, hcn, List.countP_append, List.countP_cons, hnc] using hle
  | addForward c hc =>
    have hnc : isIdleConn c = false := by
      unfold isIdleConn
      rw [hc]
      decide
    simpa [countIdle, forwardAddToPool, List.countP_append, List.countP_cons, hnc] using hle
  | select scan =>
    exact Nat.le_trans (countIdle_getConnectionFromPool_le cfg s scan) hle
  | setNonIdle cid st h =>
    have hni : (st == ConnectionState.IDLE) = false := by
      simpa using h
    refine Nat.le_trans ?_ hle
    simpa [countIdle, setConnState] using countP_updStateFirst_le cid st hni s.conns
  | complete cid st now =>
    exact countIdle_completeResponse_le cfg k s cid st now hk hle
  | evict c =>
    exact Nat.le_trans (countIdle_removeFromPool_le cfg s c) hle
  | sweep now =>
    exact Nat.le_trans (countIdle_keepaliveSweep_le cfg s now) hle

/-! ### Base-pool dispatch loop: the internal signal never escapes -/

theorem poolRequest_no_internal_signal (cfg : PoolConfig) (origin : Origin)
    (newConn : Nat → Conn) :
    ∀ (outcomes : List ReqOutcome) (s : PoolState) (r : PoolState × Except Err Unit),
      poolRequest cfg origin newConn s outcomes = some r →
      r.2 ≠ Except.error Err.newConnectionRequired := by
  intro outcomes
  induction outcomes with
  | nil =>
    intro s r h
    simp [poolRequest] at h
  | cons o rest ih =>
    intro s r h
    unfold poolRequest at h
    split at h
    · split at h
      · cases h
        simp
      · exact ih _ r h
      · cases h
        simp
    · split at h
      · cases h
        simp
      · split at h
        · cases h
          simp
        · exact ih _ r h
        · cases h
          simp

/-! ### Claim theorems -/

/-- Claim C1: the claim states that every operation inserting a connection
into the pool index — including the proxy pool's forward-request path —
acquires an admission permit first, so the index size always equals the
permits taken.  The code violates this: `AsyncHTTPProxy._forward_request`
(http_proxy src 95-101) inserts its new connection directly into
`self._connections` without touching the semaphore, while `_add_to_pool`
(the path the base pool uses) acquires first.  Evaluated on an empty pool
with `max_connections=10`: the base-pool insertion preserves
`index size = permits taken`, the forward-path insertion leaves the index at
size 1 with 0 permits taken. -/
theorem C1_forward_request_inserts_without_permit :
    indexPermitInvariant exEmptyPool ∧
    addToPool exCfg exEmptyPool exConnNew = some ⟨[exConnNew], 1⟩ ∧
    indexPermitInvariant (⟨[exConnNew], 1⟩ : PoolState) ∧
    forwardAddToPool exEmptyPool exConnNew = ⟨[exConnNew], 0⟩ ∧
    ¬ indexPermitInvariant (forwardAddToPool exEmptyPool exConnNew) := by
  refine ⟨rfl, by decide, rfl, by decide, by decide⟩

/-- Claim C2 (counterexample): the claim states that calling the wrapper's
`aclose` multiple times results in exactly one callback invocation.
`ResponseByteStream.aclose` (src 49-58) has no already-closed guard: calling
it twice invokes the pool callback twice, not once. -/
theorem C2_double_aclose_two_callbacks :
    countCallbacks (ResponseByteStream.acloseN ⟨7, false, false⟩ 2) = 2 ∧
    countCallbacks (ResponseByteStream.acloseN ⟨7, false, false⟩ 2) ≠ 1 := by
  decide

/-- Claim C2 (amended): the wrapper invokes its pool callback exactly once
per `aclose` call — so a stream disposed exactly once produces exactly one
callback invocation, but there is no idempotence guard and `n` calls produce
`n` invocations. -/
theorem C2_callback_once_per_aclose (r : ResponseByteStream) (n : Nat) :
    countCallbacks (r.acloseN n) = n := by
  induction n with
  | zero => rfl
  | succ m ih =>
    unfold ResponseByteStream.acloseN
    rw [countCallbacks, List.countP_append]
    have h2 : (r.aclose.1.countP fun e =>
        match e with
        | StreamEv.poolCallback _ => true
        | _ => false) = 1 := rfl
    rw [h2]
    rw [countCallbacks] at ih
    omega

/-- Claim C3: the claim states that `NewConnectionRequired` is always caught
inside the pool — base pool and proxy pool alike — and never propagates to
the caller of `request`.  The base pool's dispatch loop does catch it
(src 138-139, and `poolRequest_no_internal_signal` above), but the proxy
pool's forward path has no try/except around `connection.request`
(http_proxy src 112-114): evaluated on a pool holding one reusable
proxy-origin connection whose request raises `NewConnectionRequired`, the
signal is returned to the caller. -/
theorem C3_proxy_propagates_new_connection_required :
    (forwardRequest exCfg exOriginProxy exPoolProxy exConnNew
        ReqOutcome.newConnectionRequired).2
      = Except.error Err.newConnectionRequired := by
  decide

/-- Claim C6: the claim states that on any error other than
`NewConnectionRequired`, the pool (base and proxy alike) removes the
connection from the index — releasing its permit — before surfacing the
error.  The base pool does (src 140-142), but the proxy pool's forward path
has no try/except (http_proxy src 112-114): evaluated on a pool holding one
reusable proxy-origin connection whose request raises a transport error, the
error is surfaced while the connection is still a member of the index and
the permit count is unchanged. -/
theorem C6_proxy_error_leaves_connection_in_pool :
    (forwardRequest exCfg exOriginProxy exPoolProxy exConnNew
        ReqOutcome.otherError).2 = Except.error Err.otherError ∧
    memPool (forwardRequest exCfg exOriginProxy exPoolProxy exConnNew
        ReqOutcome.otherError).1 exConnProxyIdle = true ∧
    (forwardRequest exCfg exOriginProxy exPoolProxy exConnNew
        ReqOutcome.otherError).1.permitsTaken = exPoolProxy.permitsTaken := by
  refine ⟨by decide, by decide, by decide⟩

/-- Claim C9: when the response stream wrapper is disposed, `aclose`
(src 49-58) first closes the underlying body stream and then — in the
`finally` clause, hence on every exit path including the one where the
underlying close raises — invokes the pool callback with the owning
connection; an exception from the underlying close is re-raised after the
callback has run. -/
theorem C9_aclose_closes_stream_then_callback (r : ResponseByteStream) :
    (ResponseByteStream.aclose r).1
        = [StreamEv.streamClose, StreamEv.poolCallback r.connectionCid] ∧
    (ResponseByteStream.aclose r).2 = (r.callbackRaises || r.streamAcloseRaises) := by
  exact ⟨rfl, rfl⟩

/-- Claim C10: `_remove_from_pool` (src 254-260) is idempotent: removing a
connection that is not a member of the index set for its origin changes
neither the index nor the permit count, and consequently removing the same
connection twice has exactly the effect of removing it once (one permit
released in total). -/
theorem C10_remove_from_pool_idempotent (cfg : PoolConfig) (s : PoolState) (c : Conn) :
    (memPool s c = false → removeFromPool cfg s c = s) ∧
    removeFromPool cfg (removeFromPool cfg s c) c = removeFromPool cfg s c :=
  ⟨removeFromPool_of_not_mem cfg s c,
    removeFromPool_of_not_mem cfg (removeFromPool cfg s c) c
      (memPool_removeFromPool_self cfg s c)⟩

/-- Claim C10 witness: removing a connection that is not in the pool leaves
the pool unchanged, at a concrete input. -/
theorem C10_remove_from_pool_idempotent_witness :
    removeFromPool exCfg exPoolProxy exConnTunnel = exPoolProxy :=
  (C10_remove_from_pool_idempotent exCfg exPoolProxy exConnTunnel).1 (by decide)

/-- Claim C4 (counterexample): the claim states that an ACTIVE HTTP/2
connection is selected only when no non-dropped IDLE connection exists in
the per-origin set.  The scan (src 158-177) overwrites `reuse_connection` as
it goes, so with a set iterating as [non-dropped IDLE, ACTIVE HTTP/2] the
ACTIVE connection is returned even though a non-dropped IDLE one is present
(Python set order is arbitrary, so this iteration order is realisable). -/
theorem C4_active_http2_chosen_over_idle :
    ((getConnectionFromPool exCfg exPoolIdleActive
        (connectionsForOrigin exPoolIdleActive exOriginTarget)).2.map Conn.cid
      = some 2) ∧
    ((getConnectionFromPool exCfg exPoolIdleActive
        (connectionsForOrigin exPoolIdleActive exOriginTarget)).2.map Conn.state
      = some ConnectionState.ACTIVE) ∧
    exConnIdle ∈ connectionsForOrigin exPoolIdleActive exOriginTarget ∧
    exConnIdle.state = ConnectionState.IDLE ∧
    exConnIdle.dropped = false ∧
    exConnIdle.cid ≠ 2 := by
  refine ⟨by decide, by decide, by decide, rfl, rfl, by decide⟩

/-- Claim C4 (amended): the single-pass scan keeps the last connection in
iteration order that is either a non-dropped IDLE connection or an ACTIVE
HTTP/2 connection; whenever at least one such connection exists, the
selection returns it (after `mark_as_ready` and clearing `expires_at`) — an
ACTIVE HTTP/2 connection appearing later in the scan is returned in
preference to an earlier non-dropped IDLE one. -/
theorem C4_selection_returns_last_qualifying (cfg : PoolConfig) (s : PoolState)
    (scan : List Conn) (h : (lastQual scan).isSome = true) :
    (getConnectionFromPool cfg s scan).2 = (lastQual scan).map markReadyClear := by
  cases hc : lastQual scan with
  | none => rw [hc] at h; simp at h
  | some c =>
    rw [Option.map_some']
    exact sel_eq_of_lastQual cfg s scan c hc

/-- Claim C4 witness: the amended selection rule evaluated at the concrete
two-connection pool. -/
theorem C4_selection_returns_last_qualifying_witness :
    (getConnectionFromPool exCfg exPoolIdleActive
        (connectionsForOrigin exPoolIdleActive exOriginTarget)).2
      = (lastQual (connectionsForOrigin exPoolIdleActive exOriginTarget)).map
          markReadyClear :=
  C4_selection_returns_last_qualifying exCfg exPoolIdleActive
    (connectionsForOrigin exPoolIdleActive exOriginTarget) (by decide)

/-- Claim C5 (counterexample): the claim states that on a CONNECT response
with status outside 200-299 the request fails with
ProxyError("<code> <reason>"), no target-origin connection is added, and the
intermediate proxy connection is closed.  The first two parts hold, but
`_tunnel_request` (http_proxy src 135-173) never calls
`proxy_connection.aclose()` on any path: at a 407 CONNECT response the
ProxyError is raised and the pool is untouched, yet the proxy connection is
left unclosed. -/
theorem C5_connect_failure_leaves_proxy_connection_unclosed :
    tunnelRequest exCfg exEmptyPool exOriginTarget 407 exReason407 exConnTunnel
        ReqOutcome.success
      = ⟨exEmptyPool,
          Except.error (Err.proxyError (mkProxyErrorMsg 407 exReason407)),
          false, true⟩ ∧
    mkProxyErrorMsg 407 exReason407 = "407 Proxy Authentication Required" ∧
    (tunnelRequest exCfg exEmptyPool exOriginTarget 407 exReason407 exConnTunnel
        ReqOutcome.success).proxyConnClosed = false := by
  refine ⟨by decide, by decide, by decide⟩

/-- Claim C5 (amended): when no pooled connection exists for the target
origin and the CONNECT exchange returns a status outside 200-299, the
tunnelled request fails with ProxyError whose message is the status code
followed by the reason phrase, no connection for the target origin is added
to the pool index — but the intermediate proxy connection is not closed; it
is simply abandoned. -/
theorem C5_connect_failure_raises_proxy_error (cfg : PoolConfig) (s : PoolState)
    (target : Origin) (status : Nat) (reason : String) (nc : Conn) (o : ReqOutcome)
    (hempty : connectionsForOrigin s target = [])
    (hstatus : status < 200 ∨ 299 < status) :
    tunnelRequest cfg s target status reason nc o
      = ⟨s, Except.error (Err.proxyError (mkProxyErrorMsg status reason)),
          false, true⟩ := by
  unfold tunnelRequest
  rw [hempty]
  have hsel : getConnectionFromPool cfg s [] = (s, none) := by
    unfold getConnectionFromPool
    simp [List.foldl_nil]
  rw [hsel]
  simp only [if_pos hstatus]

/-- Claim C5 witness: the amended tunnel-failure behaviour evaluated at a
concrete 503 CONNECT response. -/
theorem C5_connect_failure_raises_proxy_error_witness :
    tunnelRequest exCfg exEmptyPool exOriginTarget 503 exReason503 exConnTunnel
        ReqOutcome.success
      = ⟨exEmptyPool,
          Except.error (Err.proxyError (mkProxyErrorMsg 503 exReason503)),
          false, true⟩ :=
  C5_connect_failure_raises_proxy_error exCfg exEmptyPool exOriginTarget 503
    exReason503 exConnTunnel ReqOutcome.success (by decide) (by decide)

/-- Claim C7 (counterexample): the claim states that every connection the
selection returns — including a PENDING connection shared speculatively for
HTTP/2 — has had `mark_as_ready()` called and `expires_at` cleared.  The
speculative-sharing branch (src 184-187) runs after the
`mark_as_ready`/`expires_at = None` block (src 179-183) and returns the
PENDING connection as-is: with HTTP/2 enabled and a pool holding only a
PENDING connection carrying `expires_at = 5`, the returned connection has
had zero `mark_as_ready` calls and its `expires_at` still set. -/
theorem C7_pending_share_not_marked_ready :
    ((getConnectionFromPool exCfgH2 exPoolPending
        (connectionsForOrigin exPoolPending exOriginTarget)).2.map Conn.readyCalls
      = some 0) ∧
    ((getConnectionFromPool exCfgH2 exPoolPending
        (connectionsForOrigin exPoolPending exOriginTarget)).2.map Conn.expiresAt
      = some (some 5)) ∧
    ((getConnectionFromPool exCfgH2 exPoolPending
        (connectionsForOrigin exPoolPending exOriginTarget)).2.map Conn.state
      = some ConnectionState.PENDING) := by
  refine ⟨by decide, by decide, by decide⟩

/-- Claim C7 (amended): every connection returned through the reuse branch
of the selection scan — i.e. whenever the per-origin scan contains a
non-dropped IDLE or ACTIVE HTTP/2 connection — has had `mark_as_ready()`
called on it (its ghost call counter is incremented) and its `expires_at`
cleared to null before being handed to the requester; only a PENDING
connection shared speculatively is returned unmodified. -/
theorem C7_reuse_branch_marks_ready (cfg : PoolConfig) (s : PoolState)
    (scan : List Conn) (h : (lastQual scan).isSome = true) :
    ((getConnectionFromPool cfg s scan).2.map Conn.expiresAt = some none) ∧
    ((getConnectionFromPool cfg s scan).2.map Conn.readyCalls
      = (lastQual scan).map (fun c => c.readyCalls + 1)) := by
  cases hc : lastQual scan with
  | none => rw [hc] at h; simp at h
  | some c =>
    have hsel := sel_eq_of_lastQual cfg s scan c hc
    rw [hsel]
    constructor
    · rfl
    · rfl

/-- Claim C7 witness: the reuse branch evaluated at a concrete single-IDLE
pool. -/
theorem C7_reuse_branch_marks_ready_witness :
    ((getConnectionFromPool exCfg ⟨[exConnIdle], 1⟩ [exConnIdle]).2.map Conn.expiresAt
      = some none) ∧
    ((getConnectionFromPool exCfg ⟨[exConnIdle], 1⟩ [exConnIdle]).2.map Conn.readyCalls
      = (lastQual [exConnIdle]).map (fun c => c.readyCalls + 1)) :=
  C7_reuse_branch_marks_ready exCfg ⟨[exConnIdle], 1⟩ [exConnIdle] (by decide)

/-- Claim C8: with `max_keepalive = k`, in every pool state reachable by the
serialisable event model (admissions of PENDING connections through either
insertion path, selection scans, non-IDLE in-place state changes, response
completion immediately followed by its body-close callback
`_response_closed`, evictions, and keep-alive sweeps), the number of
connections held in the index in IDLE state is at most k — in particular
after every invocation of the body-close callback completes.  The callback
(src 195-217) evicts a newly IDLE connection whenever the total index size
exceeds `max_keepalive`, and since the IDLE count never exceeds the total,
the bound is maintained. -/
theorem C8_idle_connections_bounded (cfg : PoolConfig) (k : Nat) (s : PoolState)
    (hk : cfg.maxKeepalive = some k) (h : Reach cfg s) : countIdle s ≤ k := by
  induction h with
  | init => simp [countIdle]
  | step hr hs ih => exact step_countIdle cfg k hk ih hs

/-- Claim C8 witness: the bound evaluated on a concrete reachable state —
the pool with `max_keepalive = 1` after admitting one PENDING connection. -/
theorem C8_idle_connections_bounded_witness :
    countIdle ⟨[exConnPending], 1⟩ ≤ 1 :=
  C8_idle_connections_bounded ⟨some 10, some 1, none, false⟩ 1 ⟨[exConnPending], 1⟩
    rfl
    (Reach.step Reach.init (Step.add exConnPending rfl (by decide)))
